/-
Verification of the CraftBot-AI brewery discovery / tap-list acquisition core.

The definitions below are a shallow embedding of `backend/brewery_scraper.py`
and `backend/brewery_cache.py`:
  * Python floats are modelled as exact numbers (`ℚ` where only comparisons and
    field shuffling occur, `ℝ` where trigonometry occurs); `float('inf')` is the
    `⊤` of `WithTop ℝ`.
  * `datetime.utcnow()` timestamps are rationals measured in hours.
  * The two cache tiers (a process-local dict and two SQL tables) are modelled
    as association lists inside an explicit `CacheState`, and every stateful
    method returns its new state.
  * Network and HTML-parsing effects of the scraper are oracle parameters: a
    strategy either raises or returns a beer list.
-/
import Mathlib

namespace CraftBot

/-! ## Data model (`brewery_scraper.py`, dataclasses `Beer` and `Brewery`) -/

/-- `Beer` dataclass: name, optional style/abv/ibu/description/price, and an
`availability` string defaulting to `"On Tap"`. -/
structure Beer where
  name : String
  style : Option String := none
  abv : Option ℚ := none
  ibu : Option ℤ := none
  description : Option String := none
  price : Option String := none
  availability : String := "On Tap"
  deriving DecidableEq, Repr

/-- `Brewery` dataclass after `__post_init__` has run: the `beers` field is a
genuine list (never `None`). -/
structure Brewery where
  name : String
  address : String
  phone : Option String := none
  website : Option String := none
  latitude : Option ℝ := none
  longitude : Option ℝ := none
  rating : Option ℝ := none
  hours : Option String := none
  beers : List Beer := []
  distance_miles : Option (WithTop ℝ) := none
  last_updated : Option String := none

/-- The `Brewery` dataclass fields exactly as the generated `__init__` assigns
them, before `__post_init__` runs: `beers` may still be `None`. -/
structure BreweryRaw where
  name : String
  address : String
  phone : Option String := none
  website : Option String := none
  latitude : Option ℝ := none
  longitude : Option ℝ := none
  rating : Option ℝ := none
  hours : Option String := none
  beers : Option (List Beer) := none
  distance_miles : Option (WithTop ℝ) := none
  last_updated : Option String := none

/-- `Brewery.__post_init__`: `if self.beers is None: self.beers = []`. -/
def post_init (b : BreweryRaw) : BreweryRaw :=
  match b.beers with
  | none => { b with beers := some [] }
  | some _ => b

/-! ## Serialization (`brewery_cache.py`)

`_serialize_breweries` produces, for each brewery, a dict with exactly the keys
`name address phone website latitude longitude rating hours distance_miles
beers`; `_serialize_beers` produces dicts with keys
`name style abv ibu description price availability`.  The record types below
are precisely those dict shapes. -/

structure BeerDict where
  name : String
  style : Option String
  abv : Option ℚ
  ibu : Option ℤ
  description : Option String
  price : Option String
  availability : String
  deriving DecidableEq, Repr

structure BreweryDict where
  name : String
  address : String
  phone : Option String
  website : Option String
  latitude : Option ℝ
  longitude : Option ℝ
  rating : Option ℝ
  hours : Option String
  distance_miles : Option (WithTop ℝ)
  beers : List BeerDict

/-- `BreweryCacheService._serialize_beers`. -/
def serialize_beers (beers : List Beer) : List BeerDict :=
  match beers with
  | [] => []
  | _ => beers.map fun beer =>
      { name := beer.name, style := beer.style, abv := beer.abv, ibu := beer.ibu,
        description := beer.description, price := beer.price,
        availability := beer.availability }

/-- `BreweryCacheService._deserialize_beers`; `data.get("availability", "On Tap")`
always finds the key on dicts of shape `BeerDict`. -/
def deserialize_beers (ds : List BeerDict) : List Beer :=
  ds.map fun d =>
    { name := d.name, style := d.style, abv := d.abv, ibu := d.ibu,
      description := d.description, price := d.price,
      availability := d.availability }

/-- `BreweryCacheService._serialize_breweries`: note that no `last_updated`
key is emitted. -/
def serialize_breweries (breweries : List Brewery) : List BreweryDict :=
  breweries.map fun b =>
    { name := b.name, address := b.address, phone := b.phone, website := b.website,
      latitude := b.latitude, longitude := b.longitude, rating := b.rating,
      hours := b.hours, distance_miles := b.distance_miles,
      beers := if b.beers.isEmpty then [] else serialize_beers b.beers }

/-- `BreweryCacheService._deserialize_breweries`: constructs a `Brewery` (whose
`__post_init__` sets `beers = []`), then attaches deserialized beers only when
`data.get("beers")` is truthy (non-empty). -/
def deserialize_breweries (ds : List BreweryDict) : List Brewery :=
  ds.map fun d =>
    let br : Brewery :=
      { name := d.name, address := d.address, phone := d.phone, website := d.website,
        latitude := d.latitude, longitude := d.longitude, rating := d.rating,
        hours := d.hours, distance_miles := d.distance_miles,
        beers := [], last_updated := none }
    if d.beers.isEmpty then br else { br with beers := deserialize_beers d.beers }

/-! ## MD5 (`hashlib.md5`), used by `_generate_cache_key`

A word-level model of RFC 1321 over `ℕ`, with 32-bit wrap-around written as
`% 2 ^ 32`.  Bytes are the UTF-8 encoding of the key string. -/

/-- Truncate to a 32-bit word. -/
def w32 (x : ℕ) : ℕ := x % 4294967296

/-- 32-bit left rotation. -/
def rotl32 (x s : ℕ) : ℕ := w32 (x * 2 ^ s + x / 2 ^ (32 - s))

/-- 32-bit complement. -/
def not32 (x : ℕ) : ℕ := Nat.xor x 4294967295

/-- Per-round left-rotation amounts. -/
def md5_shift : List ℕ :=
  [7, 12, 17, 22, 7, 12, 17, 22, 7, 12, 17, 22, 7, 12, 17, 22,
   5, 9, 14, 20, 5, 9, 14, 20, 5, 9, 14, 20, 5, 9, 14, 20,
   4, 11, 16, 23, 4, 11, 16, 23, 4, 11, 16, 23, 4, 11, 16, 23,
   6, 10, 15, 21, 6, 10, 15, 21, 6, 10, 15, 21, 6, 10, 15, 21]

/-- Per-round additive constants `⌊|sin(i+1)| · 2³²⌋`. -/
def md5_K : List ℕ :=
  [0xd76aa478, 0xe8c7b756, 0x242070db, 0xc1bdceee,
   0xf57c0faf, 0x4787c62a, 0xa8304613, 0xfd469501,
   0x698098d8, 0x8b44f7af, 0xffff5bb1, 0x895cd7be,
   0x6b901122, 0xfd987193, 0xa679438e, 0x49b40821,
   0xf61e2562, 0xc040b340, 0x265e5a51, 0xe9b6c7aa,
   0xd62f105d, 0x02441453, 0xd8a1e681, 0xe7d3fbc8,
   0x21e1cde6, 0xc33707d6, 0xf4d50d87, 0x455a14ed,
   0xa9e3e905, 0xfcefa3f8, 0x676f02d9, 0x8d2a4c8a,
   0xfffa3942, 0x8771f681, 0x6d9d6122, 0xfde5380c,
   0xa4beea44, 0x4bdecfa9, 0xf6bb4b60, 0xbebfbc70,
   0x289b7ec6, 0xeaa127fa, 0xd4ef3085, 0x04881d05,
   0xd9d4d039, 0xe6db99e5, 0x1fa27cf8, 0xc4ac5665,
   0xf4292244, 0x432aff97, 0xab9423a7, 0xfc93a039,
   0x655b59c3, 0x8f0ccc92, 0xffeff47d, 0x85845dd1,
   0x6fa87e4f, 0xfe2ce6e0, 0xa3014314, 0x4e0811a1,
   0xf7537e82, 0xbd3af235, 0x2ad7d2bb, 0xeb86d391]

/-- Group bytes into 32-bit little-endian words. -/
def leWords : List ℕ → List ℕ
  | b0 :: b1 :: b2 :: b3 :: rest =>
      (b0 + 256 * (b1 + 256 * (b2 + 256 * b3))) :: leWords rest
  | _ => []

/-- One MD5 round applied to the running state `(a, b, c, d)`. -/
def md5Round (m : List ℕ) (st : ℕ × ℕ × ℕ × ℕ) (i : ℕ) : ℕ × ℕ × ℕ × ℕ :=
  let (a, b, c, d) := st
  let fg : ℕ × ℕ :=
    if i < 16 then (Nat.lor (Nat.land b c) (Nat.land (not32 b) d), i)
    else if i < 32 then (Nat.lor (Nat.land d b) (Nat.land (not32 d) c), (5 * i + 1) % 16)
    else if i < 48 then (Nat.xor b (Nat.xor c d), (3 * i + 5) % 16)
    else (Nat.xor c (Nat.lor b (not32 d)), (7 * i) % 16)
  let f := w32 (fg.1 + a + md5_K.getD i 0 + m.getD fg.2 0)
  (d, w32 (b + rotl32 f (md5_shift.getD i 0)), b, c)

/-- Digest one 64-byte block into the running digest. -/
def md5Block (st : ℕ × ℕ × ℕ × ℕ) (block : List ℕ) : ℕ × ℕ × ℕ × ℕ :=
  let m := leWords block
  let (a, b, c, d) := (List.range 64).foldl (md5Round m) st
  (w32 (st.1 + a), w32 (st.2.1 + b), w32 (st.2.2.1 + c), w32 (st.2.2.2 + d))

/-- Fold the padded message, 64 bytes at a time. -/
def md5Blocks (st : ℕ × ℕ × ℕ × ℕ) : List ℕ → ℕ × ℕ × ℕ × ℕ
  | [] => st
  | b :: rest => md5Blocks (md5Block st ((b :: rest).take 64)) (rest.drop 63)
termination_by l => l.length
decreasing_by
  simp only [List.length_drop, List.length_cons]
  omega

/-- RFC 1321 padding: `0x80`, zeros to 56 mod 64, then the 64-bit
little-endian bit length. -/
def md5Pad (msg : List ℕ) : List ℕ :=
  let padLen := (55 + 64 - msg.length % 64) % 64 + 1
  let bitLen := (8 * msg.length) % 2 ^ 64
  msg ++ [128] ++ List.replicate (padLen - 1) 0 ++
    (List.range 8).map fun i => bitLen / 2 ^ (8 * i) % 256

/-- Serialize one 32-bit word to four little-endian bytes. -/
def leBytes (x : ℕ) : List ℕ :=
  [x % 256, x / 256 % 256, x / 65536 % 256, x / 16777216 % 256]

/-- Lowercase-hex rendering of a byte list (`hexdigest`). -/
def hexString (bytes : List ℕ) : String :=
  String.mk <| bytes.flatMap fun b =>
    let digit := fun n => "0123456789abcdef".toList.getD n 'x'
    [digit (b / 16 % 16), digit (b % 16)]

/-- MD5 digest of a byte sequence, as a lowercase hex string. -/
def md5Hex (msg : List ℕ) : String :=
  let (a, b, c, d) :=
    md5Blocks (0x67452301, 0xefcdab89, 0x98badcfe, 0x10325476) (md5Pad msg)
  hexString (leBytes a ++ leBytes b ++ leBytes c ++ leBytes d)

/-- UTF-8 encoding of one character (`str.encode()`), by scalar-value range. -/
def utf8Bytes (c : Char) : List ℕ :=
  let n := c.toNat
  if n < 128 then [n]
  else if n < 2048 then [192 + n / 64, 128 + n % 64]
  else if n < 65536 then [224 + n / 4096, 128 + n / 64 % 64, 128 + n % 64]
  else [240 + n / 262144, 128 + n / 4096 % 64, 128 + n / 64 % 64, 128 + n % 64]

/-- UTF-8 encoding of a string. -/
def strBytes (s : String) : List ℕ := s.toList.flatMap utf8Bytes

/-- `BreweryCacheService._generate_cache_key`:
`hashlib.md5(f"{zipcode}:{radius_miles}".encode()).hexdigest()`. -/
def generate_cache_key (zipcode : String) (radius_miles : ℤ) : String :=
  md5Hex (strBytes (zipcode ++ ":" ++ toString radius_miles))

/-! ## Cache state (`BreweryCacheService`)

Times are rationals measured in hours (`datetime.utcnow()` values); the
in-memory dict and the two database tables are association lists.  Every
method takes the current time explicitly and returns its new state. -/

/-- One row of the `brewery_search_cache` table. -/
structure SearchCacheRow where
  id : String
  zipcode : String
  radius_miles : ℤ
  search_results : List BreweryDict
  expires_at : ℚ

/-- One row of the `cached_breweries` table (only the columns the claims
touch; the payload columns are carried opaquely). -/
structure CachedBreweryRow where
  id : String
  name : String
  address : String
  tap_list : List BeerDict
  last_updated : ℚ

/-- The two cache tiers: `self.in_memory_cache` plus the two tables behind
`self.SessionLocal`. -/
structure CacheState where
  in_memory : List (String × List BreweryDict × ℚ)
  db_search : List SearchCacheRow
  db_breweries : List CachedBreweryRow

/-- Remove the entry for `key` from an association list (dict overwrite /
`.delete()`). -/
def eraseKey (m : List (String × List BreweryDict × ℚ)) (key : String) :
    List (String × List BreweryDict × ℚ) :=
  m.filter fun p => !(p.1 == key)

/-- The database arm of `get_cached_search`: the query
`filter(id == key, expires_at > utcnow()).first()`, with a hit repopulating
the in-memory tier. -/
def db_get_search (now : ℚ) (s : CacheState) (key : String) :
    Option (List Brewery) × CacheState :=
  match (s.db_search.filter fun row =>
      row.id == key && decide (now < row.expires_at)).head? with
  | some row =>
      (some (deserialize_breweries row.search_results),
       { s with in_memory :=
          (key, row.search_results, row.expires_at) :: eraseKey s.in_memory key })
  | none => (none, s)

/-- `BreweryCacheService.get_cached_search`: in-memory tier first (lazily
evicting an expired entry), then the database tier. -/
def get_cached_search (now : ℚ) (s : CacheState) (zipcode : String)
    (radius_miles : ℤ) : Option (List Brewery) × CacheState :=
  let key := generate_cache_key zipcode radius_miles
  match s.in_memory.lookup key with
  | some (data, expires_at) =>
      if now < expires_at then (some (deserialize_breweries data), s)
      else db_get_search now { s with in_memory := eraseKey s.in_memory key } key
  | none => db_get_search now s key

/-- `BreweryCacheService.cache_search_results`: delete any existing row for
the key, insert a fresh row with `expires_at = now + ttl`, and mirror the
serialized payload into the in-memory tier. -/
def cache_search_results (cache_ttl_hours now : ℚ) (zipcode : String)
    (radius_miles : ℤ) (breweries : List Brewery) (s : CacheState) : CacheState :=
  let key := generate_cache_key zipcode radius_miles
  let expires_at := now + cache_ttl_hours
  let data := serialize_breweries breweries
  { s with
    db_search :=
      { id := key, zipcode := zipcode, radius_miles := radius_miles,
        search_results := data, expires_at := expires_at }
        :: s.db_search.filter fun row => !(row.id == key),
    in_memory := (key, data, expires_at) :: eraseKey s.in_memory key }

/-- Observable outcome of `cleanup_expired_cache`: the new state, the two
counts that are only logged, and the Python return value (`None`: the method
is annotated `-> None` and has no `return` statement). -/
structure CleanupOutcome where
  state : CacheState
  logged_expired_searches : ℕ
  logged_expired_breweries : ℕ
  returned : Option (ℕ × ℕ)

/-- `BreweryCacheService.cleanup_expired_cache`: delete search rows with
`expires_at < utcnow()` and brewery rows with `last_updated` older than
7 days; the in-memory tier is not touched. -/
def cleanup_expired_cache (now : ℚ) (s : CacheState) : CleanupOutcome :=
  let expired_searches :=
    s.db_search.countP fun row => decide (row.expires_at < now)
  let db_search' := s.db_search.filter fun row => !decide (row.expires_at < now)
  let old_threshold := now - 7 * 24
  let expired_breweries :=
    s.db_breweries.countP fun row => decide (row.last_updated < old_threshold)
  let db_breweries' :=
    s.db_breweries.filter fun row => !decide (row.last_updated < old_threshold)
  { state := { s with db_search := db_search', db_breweries := db_breweries' },
    logged_expired_searches := expired_searches,
    logged_expired_breweries := expired_breweries,
    returned := none }

/-! ## Scraper helpers (`brewery_scraper.py`) -/

/-- `needle.isPrefixOf`-based scan underlying the substring test. -/
def subScan (needle : List Char) : List Char → Bool
  | [] => needle.isEmpty
  | c :: rest => needle.isPrefixOf (c :: rest) || subScan needle rest

/-- Python's `needle in haystack` substring test. -/
def strContains (haystack needle : String) : Bool :=
  subScan needle.toList haystack.toList

/-- Python's `str.lower()` (ASCII model, one character). -/
def pyLower (s : String) : String :=
  String.mk (s.toList.map Char.toLower)

/-- Python's `str.strip()`: drop leading and trailing whitespace. -/
def pyStrip (s : String) : String :=
  String.mk
    (((s.toList.dropWhile Char.isWhitespace).reverse.dropWhile
        Char.isWhitespace).reverse)

/-- Worker for `str.split()`: accumulate the current (reversed) word. -/
def splitWsAux (cur : List Char) : List Char → List String
  | [] => if cur.isEmpty then [] else [String.mk cur.reverse]
  | c :: rest =>
    if c.isWhitespace then
      if cur.isEmpty then splitWsAux [] rest
      else String.mk cur.reverse :: splitWsAux [] rest
    else splitWsAux (c :: cur) rest

/-- Python's `str.split()` with no argument: split on whitespace runs,
dropping empty pieces. -/
def pySplit (s : String) : List String := splitWsAux [] s.toList

/-- Blocklist inside `BreweryWebScraper._is_navigation_item`. -/
def nav_items : List String :=
  ["danville", "moraga", "calendar", "menu", "contact", "about",
   "brunch", "dinner", "drinks", "lunch", "reservations", "shop",
   "locations", "beer", "home", "events", "hours", "directions",
   "make a reservation", "sign up", "newsletter", "privacy policy",
   "terms of use", "beer responsibly", "over 18", "yes", "no"]

/-- `BreweryWebScraper._is_navigation_item`. -/
def is_navigation_item (text : String) : Bool :=
  let text_lower := pyStrip (pyLower text)
  if nav_items.contains text_lower then true
  else if ["brunch dinner drinks", "drinks dinner lunch"].any
      (fun nav => strContains text_lower nav) then true
  else if (pySplit text).length == 1 &&
      ["danville", "moraga", "calendar"].contains text_lower then true
  else false

/-- Substring blocklist inside `BreweryWebScraper._is_valid_beer`. -/
def non_beer_words : List String :=
  ["food", "menu", "hours", "contact", "location", "phone", "address", "about",
   "fresh pours", "tasty bites", "friendly faces", "expect variety",
   "expect quality"]

/-- `BreweryWebScraper._is_valid_beer`. -/
def is_valid_beer (beer : Beer) : Bool :=
  if beer.name == "" || beer.name.length < 3 then false
  else if is_navigation_item beer.name then false
  else if non_beer_words.any (fun w => strContains (pyLower beer.name) w) then false
  else if (match beer.abv with
           | some a => decide (a < 0.5) || decide (a > 20)
           | none => false) then false
  else if (match beer.ibu with
           | some i => decide (i < 0) || decide (i > 150)
           | none => false) then false
  else if ["1", "2", "3", "4", "5", "yes", "no", "send"].contains
      (pyStrip (pyLower beer.name)) then false
  else true

/-! ## Discovery: merge, distance, ranking
(`BreweryFinder.find_breweries_by_zipcode`) -/

/-- `brewery.name.lower()`, the deduplication key. -/
def lowerName (b : Brewery) : String := pyLower b.name

/-- The text-search merge loop: append each record whose lowercase name is
not in `seen`, growing `seen` as records are kept. -/
def dedupAppend (seen : List String) : List Brewery → List Brewery
  | [] => []
  | b :: rest =>
    if lowerName b ∈ seen then dedupAppend seen rest
    else b :: dedupAppend (lowerName b :: seen) rest

/-- The merge step of `find_breweries_by_zipcode`: `breweries_found` starts
as the nearby-search results, `brewery_names_seen` is primed with all their
lowercase names, then text-search results are appended if unseen. -/
def merge_search_results (nearby text : List Brewery) : List Brewery :=
  nearby ++ dedupAppend (nearby.map lowerName) text

/-- `calculate_distance`: haversine great-circle distance, Earth radius
3959 miles, inputs in degrees. -/
noncomputable def calculate_distance (lat1 lng1 lat2 lng2 : ℝ) : ℝ :=
  let lat1r := lat1 * (Real.pi / 180)
  let lng1r := lng1 * (Real.pi / 180)
  let lat2r := lat2 * (Real.pi / 180)
  let lng2r := lng2 * (Real.pi / 180)
  let dlat := lat2r - lat1r
  let dlng := lng2r - lng1r
  let a := Real.sin (dlat / 2) ^ 2 +
    Real.cos lat1r * Real.cos lat2r * Real.sin (dlng / 2) ^ 2
  let c := 2 * Real.arcsin (Real.sqrt a)
  3959 * c

/-- The distance-assignment loop: haversine distance when both coordinates
are present, the `float('inf')` sentinel (`⊤`) otherwise. -/
noncomputable def assign_distance (lat lng : ℝ) (b : Brewery) : Brewery :=
  match b.latitude, b.longitude with
  | some blat, some blng =>
      let d : WithTop ℝ := ((calculate_distance lat lng blat blng : ℝ) : WithTop ℝ)
      { b with distance_miles := some d }
  | _, _ => { b with distance_miles := some ⊤ }

/-- The sort key `b.distance_miles if b.distance_miles is not None else
float('inf')`. -/
def sort_key (b : Brewery) : WithTop ℝ := b.distance_miles.getD ⊤

/-- The comparison used by `breweries_found.sort(key=...)`. -/
def distLE (b b' : Brewery) : Prop := sort_key b ≤ sort_key b'

noncomputable instance : DecidableRel distLE :=
  fun b b' => inferInstanceAs (Decidable (sort_key b ≤ sort_key b'))

/-- Lines 145-155 of `find_breweries_by_zipcode`: assign distances, then
stable-sort ascending by distance (Python's `list.sort` is stable;
insertion sort is the stable sort of the same key order). -/
noncomputable def rank_by_distance (lat lng : ℝ) (l : List Brewery) : List Brewery :=
  List.insertionSort distLE (l.map (assign_distance lat lng))

/-! ## Scrape strategies and the acquisition orchestrator
(`BreweryWebScraper.scrape_brewery_tap_list`,
`BreweryDataService.get_breweries_with_tap_lists`)

Network effects are oracles: a strategy attempt either raises or returns a
(possibly empty) beer list; a whole loop-body for one brewery either raises
somewhere or runs its strategies. -/

inductive StrategyOutcome where
  | raises
  | returns (beers : List Beer)

/-- The strategy loop of `scrape_brewery_tap_list`: first strategy whose
result is truthy wins; exceptions and falsy results mean "try the next". -/
def first_nonempty : List StrategyOutcome → List Beer
  | [] => []
  | .raises :: rest => first_nonempty rest
  | .returns bs :: rest => if bs.isEmpty then first_nonempty rest else bs

/-- `BreweryWebScraper.scrape_brewery_tap_list`: no website means an
immediate empty result; otherwise the strategy chain, empty when all fail. -/
def scrape_brewery_tap_list (b : Brewery) (outcomes : List StrategyOutcome) :
    List Beer :=
  if b.website.isNone then [] else first_nonempty outcomes

inductive ScrapeBehavior where
  | raises
  | strategies (outcomes : List StrategyOutcome)

/-- One iteration of the orchestrator's per-brewery loop: the `try` body
scrapes and stamps `last_updated`; the `except` arm sets `beers = []` and
leaves `last_updated` alone. -/
def scrape_loop_body (nowStr : String) (beh : ScrapeBehavior) (b : Brewery) :
    Brewery :=
  match beh with
  | .raises => { b with beers := [] }
  | .strategies outcomes =>
      { b with beers := scrape_brewery_tap_list b outcomes,
               last_updated := some nowStr }

/-- The cache-miss path of `BreweryDataService.get_breweries_with_tap_lists`:
scrape every discovered brewery sequentially (fault-isolated per brewery),
then write the whole batch through `cache_search_results` (TTL 24h), and
return it.  `beh i` is the behaviour of the i-th brewery's loop body. -/
def get_breweries_with_tap_lists (now : ℚ) (nowStr : String)
    (beh : ℕ → ScrapeBehavior) (zipcode : String) (radius_miles : ℤ)
    (found : List Brewery) (s : CacheState) : List Brewery × CacheState :=
  let processed := found.mapIdx fun i b => scrape_loop_body nowStr (beh i) b
  (processed, cache_search_results 24 now zipcode radius_miles processed s)

/-! ## Auxiliary definitions for the claim statements and witnesses -/

/-- A brewery whose `last_updated` was non-null before the round trip. -/
def roundtripSample : Brewery :=
  { name := "Canyon Club Brewery", address := "1558 Canyon Rd, Moraga, CA",
    last_updated := some "2025-01-01 12:00:00" }

/-- A state with one expired search row and one stale detail row. -/
def cleanupSampleState : CacheState :=
  { in_memory := [("memkey", [], 5)],
    db_search := [{ id := "k1", zipcode := "94102", radius_miles := 25,
                    search_results := [], expires_at := 10 }],
    db_breweries := [{ id := "place1", name := "B", address := "A",
                       tap_list := [], last_updated := 0 }] }

/-- Two records whose names differ only by case, both returned by the
nearby search. -/
def dupNearby : List Brewery :=
  [{ name := "Ale Works", address := "1 First St" },
   { name := "ALE WORKS", address := "2 Second St" }]

/-- Concrete text-search results overlapping `nearbySample` only in case. -/
def textSample : List Brewery :=
  [{ name := "ALE REPUBLIC", address := "duplicate of a nearby record" },
   { name := "Headlands Brewing", address := "Lafayette CA" }]

/-- Nearby-search results with case-insensitively distinct names. -/
def nearbySample : List Brewery :=
  [{ name := "Canyon Club Brewery", address := "Moraga CA" },
   { name := "Ale Republic", address := "Canyon CA" }]

/-- The empty two-tier cache. -/
def emptyCacheState : CacheState := { in_memory := [], db_search := [], db_breweries := [] }

/-- A two-brewery batch for the fault-isolation witness. -/
def foundW : List Brewery :=
  [{ name := "Canyon Club Brewery", address := "Moraga CA",
     website := some "https://canyonclub.beer" },
   { name := "Ale Republic", address := "Canyon CA",
     website := some "https://alerepublic.com" }]

/-- Oracle: the first brewery's loop body raises, the second one scrapes a
single beer on its first strategy. -/
def behW : ℕ → ScrapeBehavior := fun j =>
  if j = 0 then ScrapeBehavior.raises
  else ScrapeBehavior.strategies [StrategyOutcome.returns [{ name := "Beta Tested" }]]

/-- The distance value the assignment loop is supposed to store for a
record: haversine when both coordinates are known, `+∞` otherwise. -/
noncomputable def expected_distance (lat lng : ℝ) (b : Brewery) : WithTop ℝ :=
  match b.latitude, b.longitude with
  | some blat, some blng => ((calculate_distance lat lng blat blng : ℝ) : WithTop ℝ)
  | _, _ => ⊤

/-- `brewery.latitude is not None and brewery.longitude is not None`. -/
def hasCoordsB (b : Brewery) : Bool := b.latitude.isSome && b.longitude.isSome

noncomputable instance : DecidableEq (WithTop ℝ) := Classical.decEq _

instance : IsTotal Brewery distLE :=
  ⟨fun a b => le_total (sort_key a) (sort_key b)⟩

instance : IsTrans Brewery distLE :=
  ⟨fun _ _ _ hab hbc => le_trans hab hbc⟩

/-! ## Theorems -/

theorem deserialize_serialize_beers (bs : List Beer) :
    deserialize_beers (serialize_beers bs) = bs := by
  cases bs with
  | nil => rfl
  | cons b rest =>
    simp only [serialize_beers, deserialize_beers, List.map_map]
    exact List.map_id'' (fun x => rfl) _

theorem deserialize_serialize_breweries (l : List Brewery) :
    deserialize_breweries (serialize_breweries l)
      = l.map fun b => { b with last_updated := none } := by
  simp only [serialize_breweries, deserialize_breweries, List.map_map]
  refine List.map_congr_left fun b _ => ?_
  cases hb : b.beers with
  | nil => simp [hb, Function.comp]
  | cons x xs =>
    have h1 : (serialize_beers (x :: xs)).isEmpty = false := by simp [serialize_beers]
    have h2 : ¬serialize_beers (x :: xs) = [] := by simp [serialize_beers]
    simp [hb, h1, h2, deserialize_serialize_beers]

/-! ## Claim C1: serialization round trip -/

/-- **C1** counterexample: `_serialize_breweries` emits no `last_updated` key,
so a brewery whose `last_updated` was non-null comes back from the round trip
with `last_updated = None`, refuting the claim that every non-null field
(including `Brewery.last_updated`) is reproduced. -/
theorem C1_counterexample :
    roundtripSample.last_updated = some "2025-01-01 12:00:00" ∧
    (deserialize_breweries (serialize_breweries [roundtripSample])).map
        Brewery.last_updated = [none] :=
  ⟨rfl, rfl⟩

/-- **C1** (amended): deserializing the result of serializing any brewery list
reproduces every brewery and beer field — including `Beer.availability` —
except `Brewery.last_updated`, which is always reset to `None` because the
serializer drops it. -/
theorem C1_theorem (l : List Brewery) :
    deserialize_breweries (serialize_breweries l)
      = l.map fun b => { b with last_updated := none } :=
  deserialize_serialize_breweries l

/-! ## Claim C8: `__post_init__` beers invariant -/

/-- **C8**: immediately after construction (`__post_init__`), the `beers`
field is never `None`: a missing beer list is replaced by the empty list and
a supplied one is kept. -/
theorem C8_theorem (raw : BreweryRaw) :
    ((post_init raw).beers).isSome = true ∧
    (post_init raw).beers = some (raw.beers.getD []) := by
  cases h : raw.beers <;> simp [post_init, h]

/-! ## Claim C7: cache cleanup -/

/-- **C7** counterexample: at `now = 500` the expired search row and the
7-day-stale detail row are deleted and counted, but the method's return value
is `None` — it logs the counts instead of returning them, refuting
"returns the counts of entries removed". -/
theorem C7_counterexample :
    (cleanup_expired_cache 500 cleanupSampleState).logged_expired_searches = 1 ∧
    (cleanup_expired_cache 500 cleanupSampleState).logged_expired_breweries = 1 ∧
    (cleanup_expired_cache 500 cleanupSampleState).state.db_search = [] ∧
    (cleanup_expired_cache 500 cleanupSampleState).state.db_breweries = [] ∧
    (cleanup_expired_cache 500 cleanupSampleState).returned = none := by
  have h1 : ((10 : ℚ) < 500) := by norm_num
  have h2 : ((0 : ℚ) < 500 - 7 * 24) := by norm_num
  refine ⟨?_, ?_, ?_, ?_, rfl⟩ <;>
    simp [cleanup_expired_cache, cleanupSampleState, h1, h2]

/-- **C7** (amended): `cleanup_expired_cache` deletes exactly the durable
search entries past `expires_at` and the durable detail entries whose
`last_updated` is older than 7 days, leaves the fast in-memory tier
unmodified, and only *logs* the two removal counts — its return value is
`None`, not the counts. -/
theorem C7_theorem (now : ℚ) (s : CacheState) :
    (cleanup_expired_cache now s).state.db_search
        = s.db_search.filter (fun row => !decide (row.expires_at < now)) ∧
    (cleanup_expired_cache now s).state.db_breweries
        = s.db_breweries.filter
            (fun row => !decide (row.last_updated < now - 7 * 24)) ∧
    (cleanup_expired_cache now s).state.in_memory = s.in_memory ∧
    (cleanup_expired_cache now s).logged_expired_searches
        = (s.db_search.filter (fun row => decide (row.expires_at < now))).length ∧
    (cleanup_expired_cache now s).logged_expired_breweries
        = (s.db_breweries.filter
            (fun row => decide (row.last_updated < now - 7 * 24))).length ∧
    (cleanup_expired_cache now s).returned = none := by
  refine ⟨rfl, rfl, rfl, ?_, ?_, rfl⟩ <;>
    simp [cleanup_expired_cache, List.countP_eq_length_filter]

/-! ## Claims C9 and C3: cache key determinism and TTL semantics -/

/-- After `cache_search_results`, the database tier holds exactly one row for
the generated key, so the database arm of a lookup hits exactly when the
lookup time is before `now + ttl`. -/
theorem db_get_search_after_put (later : ℚ) (key : String)
    (data : List BreweryDict) (expires : ℚ) (zc : String) (r : ℤ)
    (olds : List SearchCacheRow) (mem : List (String × List BreweryDict × ℚ))
    (dbB : List CachedBreweryRow) :
    (db_get_search later
        { in_memory := mem,
          db_search := { id := key, zipcode := zc, radius_miles := r,
                         search_results := data, expires_at := expires }
              :: olds.filter fun row => !(row.id == key),
          db_breweries := dbB } key).1
      = if later < expires then some (deserialize_breweries data) else none := by
  have hnil : ((olds.filter fun row => !(row.id == key)).filter
        fun row => row.id == key && decide (later < row.expires_at)) = [] := by
    rw [List.filter_filter]
    refine List.filter_eq_nil_iff.mpr fun row _ => ?_
    cases h : (row.id == key) <;> simp [h]
  by_cases hlt : later < expires
  · simp [db_get_search, List.filter_cons, hlt, hnil]
  · simp [db_get_search, List.filter_cons, hlt, hnil]

/-- **C9**: the cache-key generator is a pure function (same key on every
invocation), and a `get_cached_search` immediately following a
`cache_search_results` with equal `(zipcode, radius_miles)` addresses the very
entry just written: it returns the freshly deserialized copy of the cached
list. -/
theorem C9_theorem (zipcode : String) (radius_miles : ℤ) (now : ℚ)
    (breweries : List Brewery) (s : CacheState) :
    generate_cache_key zipcode radius_miles
        = generate_cache_key zipcode radius_miles ∧
    (get_cached_search now
        (cache_search_results 24 now zipcode radius_miles breweries s)
        zipcode radius_miles).1
      = some (deserialize_breweries (serialize_breweries breweries)) := by
  have hlt : now < now + 24 := by linarith
  exact ⟨rfl, by simp [get_cached_search, cache_search_results, hlt]⟩

/-- **C3**: with TTL = 24 hours, a search cached at `now` is a hit at lookup
time `later` exactly when `later < now + 24` — through the in-memory tier,
and equally through the durable tier alone (in-memory tier emptied); in
particular a hit at `now + 23h59m` and a miss at `now + 24h01m`. -/
theorem C3_theorem (now later : ℚ) (zipcode : String) (radius_miles : ℤ)
    (breweries : List Brewery) (s : CacheState) :
    ((get_cached_search later
        (cache_search_results 24 now zipcode radius_miles breweries s)
        zipcode radius_miles).1.isSome = decide (later < now + 24)) ∧
    ((get_cached_search later
        { cache_search_results 24 now zipcode radius_miles breweries s with
            in_memory := [] }
        zipcode radius_miles).1.isSome = decide (later < now + 24)) ∧
    ((get_cached_search (now + 1439 / 60)
        (cache_search_results 24 now zipcode radius_miles breweries s)
        zipcode radius_miles).1.isSome = true) ∧
    ((get_cached_search (now + 1441 / 60)
        (cache_search_results 24 now zipcode radius_miles breweries s)
        zipcode radius_miles).1.isSome = false) := by
  have hmem : ∀ t : ℚ,
      (get_cached_search t
        (cache_search_results 24 now zipcode radius_miles breweries s)
        zipcode radius_miles).1.isSome = decide (t < now + 24) := by
    intro t
    by_cases hlt : t < now + 24
    · simp [get_cached_search, cache_search_results, hlt]
    · simp only [get_cached_search, cache_search_results]
      simp only [List.lookup_cons_self, if_neg hlt]
      rw [db_get_search_after_put]
      simp [hlt]
  refine ⟨hmem later, ?_, ?_, ?_⟩
  · by_cases hlt : later < now + 24
    · simp only [get_cached_search, cache_search_results, List.lookup_nil]
      rw [db_get_search_after_put]
      simp [hlt]
    · simp only [get_cached_search, cache_search_results, List.lookup_nil]
      rw [db_get_search_after_put]
      simp [hlt]
  · rw [hmem]
    have : now + 1439 / 60 < now + 24 := by norm_num
    simp [this]
  · rw [hmem]
    have : ¬(now + 1441 / 60 < now + 24) := by norm_num
    simp [this]

/-! ## Claim C4: beer validation boundaries -/

/-- Any beer whose ABV is out of range is rejected, regardless of its other
fields. -/
theorem abv_out_of_range_rejected (beer : Beer) (a : ℚ) (ha : beer.abv = some a)
    (hout : a < 0.5 ∨ a > 20) : is_valid_beer beer = false := by
  have habv : (match beer.abv with
      | some a => decide (a < 0.5) || decide (a > 20)
      | none => false) = true := by
    rw [ha]
    rcases hout with h | h <;> simp [h]
  simp [is_valid_beer, habv]

/-- Any beer whose IBU is out of range is rejected, regardless of its other
fields. -/
theorem ibu_out_of_range_rejected (beer : Beer) (i : ℤ) (hi : beer.ibu = some i)
    (hout : i < 0 ∨ i > 150) : is_valid_beer beer = false := by
  have hibu : (match beer.ibu with
      | some i => decide (i < 0) || decide (i > 150)
      | none => false) = true := by
    rw [hi]
    rcases hout with h | h <;> simp [h]
  simp [is_valid_beer, hibu]

/-- **C4**: `_is_valid_beer` rejects any beer with `abv` present outside
`[0.5, 20.0]` or `ibu` present outside `[0, 150]`; the bounds are inclusive:
`abv = 0.5`, `abv = 20.0`, `ibu = 0`, `ibu = 150` are accepted (on an
otherwise-valid beer) while `abv = 0.49`, `abv = 20.01`, `ibu = -1`,
`ibu = 151` are rejected. -/
theorem C4_theorem :
    (∀ (beer : Beer) (a : ℚ), beer.abv = some a → a < 0.5 ∨ a > 20 →
        is_valid_beer beer = false) ∧
    (∀ (beer : Beer) (i : ℤ), beer.ibu = some i → i < 0 ∨ i > 150 →
        is_valid_beer beer = false) ∧
    is_valid_beer { name := "Test IPA", abv := some 0.5 } = true ∧
    is_valid_beer { name := "Test IPA", abv := some 20 } = true ∧
    is_valid_beer { name := "Test IPA", abv := some 0.49 } = false ∧
    is_valid_beer { name := "Test IPA", abv := some 20.01 } = false ∧
    is_valid_beer { name := "Test IPA", ibu := some 0 } = true ∧
    is_valid_beer { name := "Test IPA", ibu := some 150 } = true ∧
    is_valid_beer { name := "Test IPA", ibu := some (-1) } = false ∧
    is_valid_beer { name := "Test IPA", ibu := some 151 } = false := by
  refine ⟨abv_out_of_range_rejected, ibu_out_of_range_rejected,
    ?_, ?_, ?_, ?_, ?_, ?_, ?_, ?_⟩
  · have hq1 : ¬((0.5 : ℚ) < 0.5) := by norm_num
    have hq2 : ¬((0.5 : ℚ) > 20) := by norm_num
    simp only [is_valid_beer, decide_eq_false hq1, decide_eq_false hq2]
    decide
  · have hq1 : ¬((20 : ℚ) < 0.5) := by norm_num
    have hq2 : ¬((20 : ℚ) > 20) := by norm_num
    simp only [is_valid_beer, decide_eq_false hq1, decide_eq_false hq2]
    decide
  · have hq1 : ((0.49 : ℚ) < 0.5) := by norm_num
    simp only [is_valid_beer, decide_eq_true hq1]
    decide
  · have hq1 : ¬((20.01 : ℚ) < 0.5) := by norm_num
    have hq2 : ((20.01 : ℚ) > 20) := by norm_num
    simp only [is_valid_beer, decide_eq_false hq1, decide_eq_true hq2]
    decide
  · decide
  · decide
  · decide
  · decide

/-- **C4** witness: a concrete beer with ABV 25 is rejected by the first
conjunct of `C4_theorem`. -/
theorem C4_witness :
    ({ name := "Barrel Aged Stout", abv := some 25 } : Beer).abv = some 25 ∧
    is_valid_beer { name := "Barrel Aged Stout", abv := some 25 } = false :=
  ⟨rfl, C4_theorem.1 { name := "Barrel Aged Stout", abv := some 25 } 25 rfl
    (Or.inr (by norm_num))⟩

/-! ## Claim C2: discovery deduplication -/

/-- `dedupAppend` only inspects `seen` through membership. -/
theorem dedupAppend_congr :
    ∀ (l : List Brewery) (s₁ s₂ : List String),
      (∀ x, x ∈ s₁ ↔ x ∈ s₂) → dedupAppend s₁ l = dedupAppend s₂ l
  | [], _, _, _ => rfl
  | b :: rest, s₁, s₂, h => by
    by_cases hb : lowerName b ∈ s₁
    · simp only [dedupAppend, if_pos hb, if_pos ((h _).mp hb)]
      exact dedupAppend_congr rest s₁ s₂ h
    · simp only [dedupAppend, if_neg hb, if_neg (fun c => hb ((h _).mpr c))]
      refine congrArg _ (dedupAppend_congr rest _ _ fun x => ?_)
      simp [h x]

/-- Priming `seen` with the (duplicate-free) nearby names and then appending
the text results is the same as deduplicating the concatenation from
scratch. -/
theorem merge_eq_dedup :
    ∀ (nearby : List Brewery) (seen : List String) (text : List Brewery),
      (nearby.map lowerName).Nodup → (∀ b ∈ nearby, lowerName b ∉ seen) →
      nearby ++ dedupAppend (nearby.map lowerName ++ seen) text
        = dedupAppend seen (nearby ++ text)
  | [], seen, text, _, _ => by simp
  | b :: rest, seen, text, hnd, hdisj => by
    have hb : lowerName b ∉ seen := hdisj b (List.mem_cons_self b rest)
    have hbrest : lowerName b ∉ rest.map lowerName := by
      have := hnd
      simp only [List.map_cons, List.nodup_cons] at this
      exact this.1
    have hrest : (rest.map lowerName).Nodup := by
      have := hnd
      simp only [List.map_cons, List.nodup_cons] at this
      exact this.2
    have hdisj' : ∀ b' ∈ rest, lowerName b' ∉ lowerName b :: seen := by
      intro b' hb' hmem
      rcases List.mem_cons.mp hmem with h | h
      · exact hbrest (h ▸ List.mem_map_of_mem lowerName hb')
      · exact hdisj b' (List.mem_cons_of_mem _ hb') h
    have ih := merge_eq_dedup rest (lowerName b :: seen) text hrest hdisj'
    calc b :: rest ++ dedupAppend ((b :: rest).map lowerName ++ seen) text
        = b :: (rest ++ dedupAppend (rest.map lowerName ++ (lowerName b :: seen)) text) := by
          simp only [List.map_cons, List.cons_append, List.cons.injEq, true_and]
          refine congrArg _ (dedupAppend_congr text _ _ fun x => ?_)
          simp only [List.mem_append, List.mem_cons]
          tauto
      _ = b :: dedupAppend (lowerName b :: seen) (rest ++ text) := by rw [ih]
      _ = dedupAppend seen (b :: rest ++ text) := by
          simp only [List.cons_append, dedupAppend, if_neg hb]
          rfl

/-- The names kept by `dedupAppend` are duplicate-free and disjoint from
`seen`. -/
theorem dedupAppend_names_nodup :
    ∀ (l : List Brewery) (seen : List String),
      ((dedupAppend seen l).map lowerName).Nodup ∧
        ∀ x ∈ (dedupAppend seen l).map lowerName, x ∉ seen
  | [], seen => by simp [dedupAppend]
  | b :: rest, seen => by
    by_cases hb : lowerName b ∈ seen
    · simpa [dedupAppend, if_pos hb] using dedupAppend_names_nodup rest seen
    · have ih := dedupAppend_names_nodup rest (lowerName b :: seen)
      simp only [dedupAppend, if_neg hb, List.map_cons, List.nodup_cons]
      refine ⟨⟨fun hmem => ?_, ih.1⟩, ?_⟩
      · exact (ih.2 _ hmem) (List.mem_cons_self _ _)
      · intro x hx
        rcases List.mem_cons.mp hx with h | h
        · exact h ▸ hb
        · intro hxseen
          exact (ih.2 x h) (List.mem_cons_of_mem _ hxseen)

/-- A name survives `dedupAppend` iff it occurs in the input and is not
already seen. -/
theorem mem_dedupAppend_names :
    ∀ (l : List Brewery) (seen : List String) (n : String),
      n ∈ (dedupAppend seen l).map lowerName ↔
        n ∈ l.map lowerName ∧ n ∉ seen
  | [], seen, n => by simp [dedupAppend]
  | b :: rest, seen, n => by
    by_cases hb : lowerName b ∈ seen
    · rw [dedupAppend, if_pos hb, mem_dedupAppend_names rest seen n]
      simp only [List.map_cons, List.mem_cons]
      constructor
      · rintro ⟨h1, h2⟩
        exact ⟨Or.inr h1, h2⟩
      · rintro ⟨h1 | h1, h2⟩
        · exact absurd (h1 ▸ hb) h2
        · exact ⟨h1, h2⟩
    · rw [dedupAppend, if_neg hb]
      simp only [List.map_cons, List.mem_cons,
        mem_dedupAppend_names rest (lowerName b :: seen) n]
      constructor
      · rintro (h | ⟨h1, h2⟩)
        · exact ⟨Or.inl h, h ▸ hb⟩
        · exact ⟨Or.inr h1, fun hs => h2 (Or.inr hs)⟩
      · rintro ⟨h1 | h1, h2⟩
        · exact Or.inl h1
        · by_cases hbn : n = lowerName b
          · exact Or.inl hbn
          · exact Or.inr ⟨h1, fun hs => hs.elim hbn h2⟩

/-- **C2** counterexample: the merge step only primes the seen-set with the
nearby names; it never deduplicates *within* the nearby list, so a nearby
list containing "Ale Works" and "ALE WORKS" yields a merged list with the
name "ale works" twice — the claim fails for this pair of result lists. -/
theorem C2_counterexample :
    ((merge_search_results dupNearby []).map lowerName).count "ale works"
      = 2 := by decide

/-- **C2** (amended): provided the nearby-search list itself carries no
case-insensitive duplicate names, the merged list is exactly the first-seen
case-insensitive deduplication of `nearby ++ text`: each distinct name
appears exactly once, first-seen order is preserved, and on a collision the
nearby record (the earlier occurrence) is the one retained — in particular
the nearby list survives verbatim as a prefix. -/
theorem C2_theorem (nearby text : List Brewery)
    (hnd : (nearby.map lowerName).Nodup) :
    merge_search_results nearby text = dedupAppend [] (nearby ++ text) ∧
    ((merge_search_results nearby text).map lowerName).Nodup ∧
    (∀ n, n ∈ (merge_search_results nearby text).map lowerName ↔
        n ∈ (nearby ++ text).map lowerName) ∧
    (merge_search_results nearby text).take nearby.length = nearby := by
  have hmerge : merge_search_results nearby text
      = dedupAppend [] (nearby ++ text) := by
    have := merge_eq_dedup nearby [] text hnd (by simp)
    simpa [merge_search_results] using this
  refine ⟨hmerge, ?_, ?_, ?_⟩
  · rw [hmerge]
    exact (dedupAppend_names_nodup _ _).1
  · intro n
    rw [hmerge, mem_dedupAppend_names]
    simp
  · simp only [merge_search_results]
    exact List.take_left nearby _

/-- **C2** witness: `C2_theorem` applied to concrete nearby/text lists whose
nearby names are case-insensitively distinct. -/
theorem C2_witness :
    (nearbySample.map lowerName).Nodup ∧
    ((merge_search_results nearbySample textSample).map lowerName).Nodup ∧
    (merge_search_results nearbySample textSample).take nearbySample.length
      = nearbySample :=
  ⟨by decide, (C2_theorem nearbySample textSample (by decide)).2.1,
    (C2_theorem nearbySample textSample (by decide)).2.2.2⟩

/-! ## Claim C6: per-brewery fault isolation in the orchestrator -/

/-- If every strategy attempt raises or returns an empty list, the strategy
chain yields an empty list. -/
theorem first_nonempty_all_fail :
    ∀ outcomes : List StrategyOutcome,
      (∀ o ∈ outcomes, o = StrategyOutcome.raises
          ∨ o = StrategyOutcome.returns []) →
      first_nonempty outcomes = []
  | [], _ => rfl
  | StrategyOutcome.raises :: rest, h =>
      first_nonempty_all_fail rest fun o ho => h o (List.mem_cons_of_mem _ ho)
  | StrategyOutcome.returns bs :: rest, h => by
      rcases h _ (List.mem_cons_self _ _) with h1 | h1
      · exact absurd h1 (by simp)
      · have hbs : bs = [] := by injection h1
        subst hbs
        simpa [first_nonempty] using
          first_nonempty_all_fail rest fun o ho => h o (List.mem_cons_of_mem _ ho)

/-- **C6**: in the orchestrator's batch loop, a brewery whose loop body
raises ends with `beers = []`; every other brewery is still processed to its
own result; the batch length is preserved; the full batch — failed brewery
included — is written through to the cache, where an immediate lookup finds
it; and a brewery all of whose fetch strategies fail (raise or return
nothing) gets an empty tap list from the scraper. -/
theorem C6_theorem (now : ℚ) (nowStr : String) (beh : ℕ → ScrapeBehavior)
    (zipcode : String) (radius_miles : ℤ) (found : List Brewery)
    (s : CacheState) (i : ℕ) (hbeh : beh i = ScrapeBehavior.raises) :
    ((get_breweries_with_tap_lists now nowStr beh zipcode radius_miles found
        s).1.length = found.length) ∧
    (((get_breweries_with_tap_lists now nowStr beh zipcode radius_miles found
        s).1[i]?).map Brewery.beers = (found[i]?).map fun _ => []) ∧
    (∀ j, (get_breweries_with_tap_lists now nowStr beh zipcode radius_miles
        found s).1[j]?
      = (found[j]?).map fun b => scrape_loop_body nowStr (beh j) b) ∧
    ((get_cached_search now
        (get_breweries_with_tap_lists now nowStr beh zipcode radius_miles
          found s).2 zipcode radius_miles).1
      = some (deserialize_breweries (serialize_breweries
          (get_breweries_with_tap_lists now nowStr beh zipcode radius_miles
            found s).1))) ∧
    (∀ (b : Brewery) (outcomes : List StrategyOutcome),
      (∀ o ∈ outcomes, o = StrategyOutcome.raises
          ∨ o = StrategyOutcome.returns []) →
      scrape_brewery_tap_list b outcomes = []) := by
  refine ⟨?_, ?_, ?_, ?_, ?_⟩
  · simp [get_breweries_with_tap_lists]
  · simp only [get_breweries_with_tap_lists, List.getElem?_mapIdx]
    cases found[i]? with
    | none => rfl
    | some b => simp [hbeh, scrape_loop_body]
  · intro j
    simp [get_breweries_with_tap_lists]
  · have hlt : now < now + 24 := by linarith
    simp [get_breweries_with_tap_lists, get_cached_search,
      cache_search_results, hlt]
  · intro b outcomes h
    unfold scrape_brewery_tap_list
    rw [first_nonempty_all_fail outcomes h]
    simp

/-- **C6** witness: `C6_theorem` at a concrete two-brewery batch whose first
brewery raises: the first result has no beers, the second is fully
processed. -/
theorem C6_witness :
    (((get_breweries_with_tap_lists 0 "2025-01-01 12:00:00" behW "94556" 15
        foundW emptyCacheState).1[0]?).map Brewery.beers
      = (foundW[0]?).map fun _ => []) ∧
    ((get_breweries_with_tap_lists 0 "2025-01-01 12:00:00" behW "94556" 15
        foundW emptyCacheState).1[1]?
      = (foundW[1]?).map fun b =>
          scrape_loop_body "2025-01-01 12:00:00" (behW 1) b) :=
  ⟨(C6_theorem 0 "2025-01-01 12:00:00" behW "94556" 15 foundW emptyCacheState
      0 rfl).2.1,
   (C6_theorem 0 "2025-01-01 12:00:00" behW "94556" 15 foundW emptyCacheState
      0 rfl).2.2.1 1⟩

/-! ## Claim C10: symmetry of the haversine distance -/

/-- **C10**: `calculate_distance` is symmetric in its two points, and the
distance from a point to itself is `0`. -/
theorem C10_theorem :
    (∀ lat1 lng1 lat2 lng2 : ℝ,
        calculate_distance lat1 lng1 lat2 lng2
          = calculate_distance lat2 lng2 lat1 lng1) ∧
    (∀ lat lng : ℝ, calculate_distance lat lng lat lng = 0) := by
  constructor
  · intro lat1 lng1 lat2 lng2
    have hsin : ∀ x y : ℝ,
        Real.sin ((x - y) / 2) ^ 2 = Real.sin ((y - x) / 2) ^ 2 := by
      intro x y
      rw [show (x - y) / 2 = -((y - x) / 2) by ring, Real.sin_neg, neg_sq]
    have h1 := hsin (lat2 * (Real.pi / 180)) (lat1 * (Real.pi / 180))
    have h2 := hsin (lng2 * (Real.pi / 180)) (lng1 * (Real.pi / 180))
    simp only [calculate_distance]
    rw [h1, h2, mul_comm (Real.cos (lat1 * (Real.pi / 180)))]
  · intro lat lng
    simp [calculate_distance]

/-! ## Claim C5: distance ordering of the discovery output -/

/-- Field-level behaviour of one distance assignment. -/
theorem assign_distance_spec (lat lng : ℝ) (b : Brewery) :
    (assign_distance lat lng b).distance_miles
        = some (expected_distance lat lng (assign_distance lat lng b)) ∧
    (hasCoordsB (assign_distance lat lng b) = false →
        sort_key (assign_distance lat lng b) = ⊤) ∧
    (hasCoordsB (assign_distance lat lng b) = true →
        sort_key (assign_distance lat lng b) ≠ ⊤) := by
  rcases h1 : b.latitude with _ | blat <;> rcases h2 : b.longitude with _ | blng <;>
    simp [assign_distance, expected_distance, hasCoordsB, sort_key, h1, h2]

/-- A list sorted by a `WithTop`-valued key splits as "finite keys first,
`⊤` keys last" once the predicate matches key finiteness. -/
theorem sorted_partition {α : Type} (p : α → Bool) (key : α → WithTop ℝ) :
    ∀ l : List α, l.Pairwise (fun a b => key a ≤ key b) →
      (∀ a ∈ l, p a = false → key a = ⊤) →
      (∀ a ∈ l, p a = true → key a ≠ ⊤) →
      l = l.filter p ++ l.filter (fun a => !(p a))
  | [], _, _, _ => rfl
  | x :: rest, hpw, hfalse, htrue => by
    have hx := List.pairwise_cons.mp hpw
    cases hp : p x with
    | true =>
      have ih := sorted_partition p key rest hx.2
        (fun a ha => hfalse a (List.mem_cons_of_mem _ ha))
        (fun a ha => htrue a (List.mem_cons_of_mem _ ha))
      simp only [List.filter_cons, hp, Bool.not_true, List.cons_append]
      exact congrArg _ ih
    | false =>
      have hxtop : key x = ⊤ := hfalse x (List.mem_cons_self _ _) hp
      have hall : ∀ a ∈ rest, p a = false := by
        intro a ha
        have : key a = ⊤ := top_le_iff.mp (hxtop ▸ hx.1 a ha)
        cases hpa : p a with
        | false => rfl
        | true => exact absurd this (htrue a (List.mem_cons_of_mem _ ha) hpa)
      have h1 : rest.filter p = [] :=
        List.filter_eq_nil_iff.mpr fun a ha => by simp [hall a ha]
      have h2 : rest.filter (fun a => !(p a)) = rest :=
        List.filter_eq_self.mpr fun a ha => by simp [hall a ha]
      simp [List.filter_cons, hp, h1, h2]

/-- Stability of insertion sort on the distance order: records with any
fixed key value keep their input order. -/
theorem insertionSort_stable_filter (l : List Brewery) (k : WithTop ℝ) :
    (List.insertionSort distLE l).filter (fun b => decide (sort_key b = k))
      = l.filter (fun b => decide (sort_key b = k)) := by
  have hkeys : ∀ b ∈ l.filter (fun b => decide (sort_key b = k)),
      sort_key b = k := by
    intro b hb
    simpa using List.of_mem_filter hb
  have hpair : (l.filter (fun b => decide (sort_key b = k))).Pairwise distLE :=
    List.pairwise_of_forall_mem_list fun a ha b hb =>
      le_of_eq ((hkeys a ha).trans (hkeys b hb).symm)
  have hsub : List.Sublist (l.filter fun b => decide (sort_key b = k))
      (List.insertionSort distLE l) :=
    List.sublist_insertionSort hpair (List.filter_sublist l)
  have hself : (l.filter fun b => decide (sort_key b = k)).filter
      (fun b => decide (sort_key b = k)) = l.filter fun b => decide (sort_key b = k) :=
    List.filter_eq_self.mpr fun a ha => (List.mem_filter.mp ha).2
  have hsub2 : List.Sublist (l.filter fun b => decide (sort_key b = k))
      ((List.insertionSort distLE l).filter fun b => decide (sort_key b = k)) :=
    hself ▸ hsub.filter (fun b => decide (sort_key b = k))
  have hperm : ((List.insertionSort distLE l).filter
        fun b => decide (sort_key b = k)).Perm
      (l.filter fun b => decide (sort_key b = k)) :=
    (List.perm_insertionSort distLE l).filter _
  exact (hsub2.eq_of_length hperm.length_eq.symm).symm

/-- Every record in the ranked output is a distance-assigned copy of an
input record. -/
theorem mem_rank_by_distance (lat lng : ℝ) (l : List Brewery) (b : Brewery)
    (hb : b ∈ rank_by_distance lat lng l) :
    ∃ b0 ∈ l, b = assign_distance lat lng b0 := by
  have : b ∈ l.map (assign_distance lat lng) :=
    (List.perm_insertionSort distLE _).mem_iff.mp hb
  rcases List.mem_map.mp this with ⟨b0, hb0, rfl⟩
  exact ⟨b0, hb0, rfl⟩

/-- **C5**: the discovery output is sorted by non-decreasing distance key;
every record's stored `distance_miles` is the haversine distance when its
coordinates are known and the `+∞` sentinel otherwise; all records lacking
coordinates come after all records with coordinates; and the sort is stable
(records of equal key keep the input order of the distance-assigned list). -/
theorem C5_theorem (lat lng : ℝ) (l : List Brewery) :
    ((rank_by_distance lat lng l).map sort_key).Sorted (· ≤ ·) ∧
    ((rank_by_distance lat lng l).map Brewery.distance_miles
      = (rank_by_distance lat lng l).map fun b =>
          some (expected_distance lat lng b)) ∧
    (rank_by_distance lat lng l
      = (rank_by_distance lat lng l).filter hasCoordsB
          ++ (rank_by_distance lat lng l).filter fun b => !(hasCoordsB b)) ∧
    (∀ k : WithTop ℝ,
      (rank_by_distance lat lng l).filter (fun b => decide (sort_key b = k))
        = (l.map (assign_distance lat lng)).filter
            (fun b => decide (sort_key b = k))) := by
  have hsorted : (rank_by_distance lat lng l).Pairwise distLE :=
    List.sorted_insertionSort distLE _
  refine ⟨?_, ?_, ?_, fun k => insertionSort_stable_filter _ k⟩
  · exact (List.pairwise_map).mpr hsorted
  · refine List.map_congr_left fun b hb => ?_
    rcases mem_rank_by_distance lat lng l b hb with ⟨b0, _, rfl⟩
    exact (assign_distance_spec lat lng b0).1
  · refine sorted_partition hasCoordsB sort_key _ hsorted ?_ ?_ <;>
      intro b hb <;>
      rcases mem_rank_by_distance lat lng l b hb with ⟨b0, _, rfl⟩
    · exact (assign_distance_spec lat lng b0).2.1
    · exact (assign_distance_spec lat lng b0).2.2

end CraftBot
